import Mathlib

/-!
Verification of the VOLTTRON platform message-exchange and supervision core
(`volttron/platform/main.py`) against its specification.

The exchange loop in `agent_exchange` is embedded shallowly: a frame is a
list of characters (a Python 2 byte string), a message is a list of frames,
and the subscription table (a Python `set`) is represented by a duplicate-free
list whose order stands for the set's unspecified iteration order.
-/

namespace Volttron

/-- A single message frame: a byte string, modelled as a list of characters. -/
abbrev Frame := List Char

/-- A multi-part message: an ordered sequence of frames. -/
abbrev Message := List Frame

/-- The reserved topic `"subscriptions/list"` (18 characters). -/
def subsListTopic : Frame := "subscriptions/list".data

/-- The test `topic.startswith('subscriptions/list') and topic[18:19] in ['/', '']`
from `agent_exchange`: frame 0 marks a subscription-list query. -/
def isListQuery (topic : Frame) : Bool :=
  subsListTopic.isPrefixOf topic &&
    ((topic.drop 18).take 1 == ['/'] || (topic.drop 18).take 1 == [])

/-- Python `set.add`: insert the topic if absent, otherwise leave the table
unchanged (idempotent). -/
def setAdd (t : Frame) (s : List Frame) : List Frame :=
  if t ∈ s then s else t :: s

/-- Python `set.discard`: remove the topic if present; a no-op when absent. -/
def setDiscard (t : Frame) (s : List Frame) : List Frame :=
  s.erase t

/-- The inbound-message branch of the `agent_exchange` loop: a
`subscriptions/list` query is rewritten (keep frames 0 and 1, synthesizing an
empty headers frame for a one-frame message, dropping later frames, then
appending the matching subscription topics); anything else is forwarded as-is.
Returns the message sent on the outbound channel. -/
def handleIncoming (subscriptions : List Frame) (message : Message) : Message :=
  match message with
  | [] => []
  | topic :: rest =>
    if isListQuery topic then
      let base : Message :=
        if rest.length + 1 > 2 then topic :: rest.take 1
        else if rest.length + 1 == 1 then [topic, []]
        else topic :: rest
      let pre := topic.drop 19
      base ++ subscriptions.filter (fun t => pre.isPrefixOf t)
    else message

/-- The subscription-event branch of the `agent_exchange` loop: an empty frame
is ignored; otherwise the first byte is the add/remove flag and the rest the
topic.  Returns the updated table and the announcement topic, if any. -/
def handleSubscription (subscriptions : List Frame) (message : Frame) :
    List Frame × Option Frame :=
  match message with
  | [] => (subscriptions, none)
  | c :: topic =>
    let add := c.toNat != 0
    let subs' := if add then setAdd topic subscriptions
                 else setDiscard topic subscriptions
    let sep : Frame := if topic.take 1 == ['/'] then [] else ['/']
    (subs', some ("subscriptions/".data ++
      (if add then "add".data else "remove".data) ++ sep ++ topic))

/-- One poll event of the exchange loop: either an inbound multi-part message
or a subscription event surfaced by the outbound socket. -/
inductive PollEvent where
  | inbound (m : Message)
  | subscription (f : Frame)
deriving DecidableEq

/-- One iteration of the `agent_exchange` poll loop: dispatch on which socket
fired, returning the new subscription table and the messages sent on the
outbound channel. -/
def exchangeStep (subscriptions : List Frame) :
    PollEvent → List Frame × List Message
  | .inbound m => (subscriptions, [handleIncoming subscriptions m])
  | .subscription f =>
    let (s, a) := handleSubscription subscriptions f
    (s, match a with | some t => [[t]] | none => [])

/-- Replay a sequence of subscription-event frames through the exchange,
starting from the empty table (the state after `subscriptions = set()`). -/
def processEvents (events : List Frame) : List Frame :=
  events.foldl (fun s e => (handleSubscription s e).1) []

/-! Supervisor model.

The function `main` wires the run phase as

```
try:
    exchange = gevent.spawn(agent_exchange, ...)
    try:
        control = gevent.spawn(control_loop, opts)
        exchange.link(lambda *a: control.kill())
        control.join()
    finally:
        exchange.kill()
finally:
    opts.aip.finish()
```

and `_main` runs `sys.exit(main())`, catching `KeyboardInterrupt`.  The task
primitives (`spawn`/`link`/`join`/`kill`) and the bodies of `control_loop` and
`aip.finish` are outside `src/`; their cooperative semantics are modelled from
the spec: spawn starts a task, link registers cancellation of Control when
Exchange stops, join blocks until Control stops and surfaces the terminating
error, kill cancels a task if it is still running (a no-op otherwise). -/

/-- Reason a supervised task stopped. -/
inductive StopReason where
  | completed
  | failed (e : String)
  | cancelled
deriving DecidableEq, Repr

/-- Observable events of one supervisor run: task spawns and stops, the kill
calls issued by the link callback and the inner `finally`, and the
Process-Management Service teardown `opts.aip.finish()`. -/
inductive Event where
  | spawnExchange
  | spawnControl
  | exchangeStopped (r : StopReason)
  | controlStopped (r : StopReason)
  | killControl
  | killExchange
  | finish
deriving DecidableEq, Repr

/-- The condition escaping `main` into `_main`, if any: `none` means `main`
returned normally. -/
inductive Propagated where
  | interrupt
  | error (e : String)
deriving DecidableEq, Repr

/-- Outcome of one supervisor run: the event trace, the final state of each
task, and what (if anything) propagated out of `main`. -/
structure RunResult where
  trace : List Event
  exchangeFinal : StopReason
  controlFinal : StopReason
  propagated : Option Propagated
deriving DecidableEq, Repr

/-- Modelled from the spec: how the blocking `control.join()` is resolved —
Control completes normally, Control fails, Exchange fails first (the link then
cancels Control), or an external interrupt signal arrives while the Supervisor
blocks.  `control_loop` (whose body is outside `src/`) and the external
interrupt are the sources of these outcomes. -/
inductive Scenario where
  | controlCompletes
  | controlFails (e : String)
  | exchangeFails (e : String)
  | interrupt
deriving DecidableEq, Repr

/-- Modelled from the spec: one run of the `try/finally` structure of `main`'s
run phase under each scenario.  In every case the inner `finally` issues
`exchange.kill()`, the link callback issues `control.kill()` when Exchange
stops, and the outer `finally` calls `opts.aip.finish()` last. -/
def supervise : Scenario → RunResult
  | .controlCompletes =>
    { trace := [.spawnExchange, .spawnControl, .controlStopped .completed,
                .killExchange, .exchangeStopped .cancelled, .killControl, .finish]
      exchangeFinal := .cancelled
      controlFinal := .completed
      propagated := none }
  | .controlFails e =>
    { trace := [.spawnExchange, .spawnControl, .controlStopped (.failed e),
                .killExchange, .exchangeStopped .cancelled, .killControl, .finish]
      exchangeFinal := .cancelled
      controlFinal := .failed e
      propagated := some (.error e) }
  | .exchangeFails e =>
    { trace := [.spawnExchange, .spawnControl, .exchangeStopped (.failed e),
                .killControl, .controlStopped .cancelled, .killExchange, .finish]
      exchangeFinal := .failed e
      controlFinal := .cancelled
      propagated := some (.error e) }
  | .interrupt =>
    { trace := [.spawnExchange, .spawnControl, .killExchange,
                .exchangeStopped .cancelled, .killControl,
                .controlStopped .cancelled, .finish]
      exchangeFinal := .cancelled
      controlFinal := .cancelled
      propagated := some .interrupt }

/-- The entry point `_main` runs `sys.exit(main())` inside
`try ... except KeyboardInterrupt: pass`.  A normal return exits with status 0;
a caught interrupt also ends the process with status 0; any other propagated
error leaves a non-zero status. -/
def exitStatus (p : Option Propagated) : Nat :=
  match p with
  | none => 0
  | some .interrupt => 0
  | some (.error _) => 1

/-- Recognizer for Exchange-stop events. -/
def isExchangeStop : Event → Bool
  | .exchangeStopped _ => true
  | _ => false

/-- Recognizer for Control-stop events. -/
def isControlStop : Event → Bool
  | .controlStopped _ => true
  | _ => false

/-- Recognizer for the teardown event. -/
def isFinish : Event → Bool
  | .finish => true
  | _ => false

/-- The first task-stop event of a trace. -/
def firstStop (t : List Event) : Option Event :=
  t.find? (fun e => isExchangeStop e || isControlStop e)

/-- Whether the first task to stop was the Exchange. -/
def firstStopIsExchange (t : List Event) : Bool :=
  match firstStop t with
  | some e => isExchangeStop e
  | none => false

/-- Whether the first task to stop was the Control task. -/
def firstStopIsControl (t : List Event) : Bool :=
  match firstStop t with
  | some e => isControlStop e
  | none => false

/-! Theorems settling the specification claims. -/

/-- C3: on every exit path of the run phase — normal completion, an error
propagated from either task, or an external interrupt — the teardown call
`opts.aip.finish()` appears exactly once in the trace, as the last event,
strictly after both tasks have stopped. -/
theorem finish_exactly_once_after_both_stops (s : Scenario) :
    ((supervise s).trace.filter isFinish).length = 1
    ∧ (supervise s).trace.getLast? = some .finish
    ∧ (supervise s).trace.dropLast.any isExchangeStop = true
    ∧ (supervise s).trace.dropLast.any isControlStop = true := by
  cases s <;> exact ⟨rfl, rfl, rfl, rfl⟩

/-- C4: whenever the Exchange stops first, the Control task ends cancelled
(the link callback kills it); whenever the Control task stops first, the
Supervisor's `finally: exchange.kill()` leaves the Exchange cancelled; and the
`exchange.kill()` call occurs before the teardown, which is the last event. -/
theorem linked_cancellation (s : Scenario) :
    (firstStopIsExchange (supervise s).trace = true →
        (supervise s).controlFinal = .cancelled)
    ∧ (firstStopIsControl (supervise s).trace = true →
        (supervise s).exchangeFinal = .cancelled)
    ∧ (supervise s).trace.dropLast.contains .killExchange = true
    ∧ (supervise s).trace.getLast? = some .finish := by
  cases s with
  | controlCompletes => exact ⟨fun h => Bool.noConfusion h, fun _ => rfl, rfl, rfl⟩
  | controlFails e => exact ⟨fun h => Bool.noConfusion h, fun _ => rfl, rfl, rfl⟩
  | exchangeFails e => exact ⟨fun _ => rfl, fun h => Bool.noConfusion h, rfl, rfl⟩
  | interrupt => exact ⟨fun _ => rfl, fun h => Bool.noConfusion h, rfl, rfl⟩

/-- C4 witness: in the run where the Exchange fails, the Control task ends
cancelled. -/
theorem linked_cancellation_witness :
    (supervise (.exchangeFails "boom")).controlFinal = .cancelled :=
  (linked_cancellation (.exchangeFails "boom")).1 rfl

/-- C5: the process exit status is 0 exactly when the Control task completed
normally or the run ended by an external interrupt; any other scenario
propagates its error (non-zero status); teardown is the last event in every
case. -/
theorem exit_status_spec (s : Scenario) :
    (exitStatus (supervise s).propagated = 0 ↔
        (s = .controlCompletes ∨ s = .interrupt))
    ∧ (supervise s).trace.getLast? = some .finish := by
  cases s with
  | controlCompletes => exact ⟨⟨fun _ => Or.inl rfl, fun _ => rfl⟩, rfl⟩
  | controlFails e =>
    exact ⟨⟨fun h => absurd h one_ne_zero,
            fun h => h.elim (fun h => Scenario.noConfusion h)
              (fun h => Scenario.noConfusion h)⟩, rfl⟩
  | exchangeFails e =>
    exact ⟨⟨fun h => absurd h one_ne_zero,
            fun h => h.elim (fun h => Scenario.noConfusion h)
              (fun h => Scenario.noConfusion h)⟩, rfl⟩
  | interrupt => exact ⟨⟨fun _ => Or.inr rfl, fun _ => rfl⟩, rfl⟩

/-- C8: an inbound message whose frame 0 is not a subscriptions/list query is
forwarded with all frames identical to the original. -/
theorem forward_non_query_unchanged (subs : List Frame) (topic : Frame)
    (rest : List Frame) (h : isListQuery topic = false) :
    handleIncoming subs (topic :: rest) = topic :: rest := by
  simp [handleIncoming, h]

/-- C8 witness: a concrete three-frame message with an ordinary topic passes
through untouched. -/
theorem forward_non_query_unchanged_witness :
    isListQuery "devices/all".data = false
    ∧ handleIncoming ["a".data] ["devices/all".data, "H".data, "p".data]
        = ["devices/all".data, "H".data, "p".data] :=
  ⟨by decide, forward_non_query_unchanged _ _ _ (by decide)⟩

/-- C9: an empty subscription-event frame is ignored: the table is unchanged,
no announcement is produced, and no flag byte is inspected (the handler is
total on this input). -/
theorem empty_event_ignored (subs : List Frame) :
    handleSubscription subs [] = (subs, none)
    ∧ exchangeStep subs (.subscription []) = (subs, []) :=
  ⟨rfl, rfl⟩

/-- C10: handling an inbound message never modifies the Subscription Table;
any poll event that changes the table is a subscription event. -/
theorem inbound_preserves_table (subs : List Frame) :
    (∀ m : Message, (exchangeStep subs (.inbound m)).1 = subs)
    ∧ (∀ e : PollEvent, (exchangeStep subs e).1 ≠ subs → ∃ f, e = .subscription f) := by
  refine ⟨fun m => rfl, fun e h => ?_⟩
  cases e with
  | inbound m => exact absurd rfl h
  | subscription f => exact ⟨f, rfl⟩

/-- C10 witness: a concrete table-changing event is a subscription event. -/
theorem inbound_preserves_table_witness :
    ∃ f, PollEvent.subscription ('\x01' :: "a".data) = PollEvent.subscription f :=
  (inbound_preserves_table []).2 _ (by decide)

/-- C7: a subscription event with flag byte `c` and topic `t` produces a
single-frame announcement whose topic is `subscriptions/add` (flag set) or
`subscriptions/remove` (flag clear) followed by `t`, with a `/` separator
inserted only when `t` does not already begin with `/`. -/
theorem announcement_format (subs : List Frame) (c : Char) (topic : Frame) :
    (exchangeStep subs (.subscription (c :: topic))).2
      = [[(if c.toNat ≠ 0 then "subscriptions/add".data
           else "subscriptions/remove".data)
          ++ (if topic.take 1 = ['/'] then topic else '/' :: topic)]] := by
  by_cases hc : c.toNat = 0 <;> by_cases ht : topic.take 1 = ['/'] <;>
    simp [exchangeStep, handleSubscription, hc, ht]

/-- C1: the reply to a subscription-list query keeps frame 0 and frame 1
(synthesizing an empty headers frame for a one-frame message and dropping all
frames past frame 1) and appends exactly the set of Subscription Table entries
starting with the stripped prefix, one entry per frame — every entry when the
query topic is exactly `subscriptions/list`. -/
theorem list_query_reply (subs : List Frame) (topic : Frame) (rest : List Frame)
    (hq : isListQuery topic = true) (hnd : subs.Nodup) :
    handleIncoming subs (topic :: rest)
        = topic :: rest.headD []
            :: subs.filter (fun t => (topic.drop 19).isPrefixOf t)
      ∧ (subs.filter (fun t => (topic.drop 19).isPrefixOf t)).toFinset
          = subs.toFinset.filter (fun t => (topic.drop 19).isPrefixOf t)
      ∧ (subs.filter (fun t => (topic.drop 19).isPrefixOf t)).Nodup
      ∧ (topic = subsListTopic →
          subs.filter (fun t => (topic.drop 19).isPrefixOf t) = subs) := by
  refine ⟨?_, ?_, hnd.filter _, ?_⟩
  · match rest with
    | [] => simp [handleIncoming, hq]
    | [h] => simp [handleIncoming, hq]
    | h :: h2 :: tl => simp [handleIncoming, hq]
  · ext a
    simp [List.mem_toFinset, List.mem_filter]
  · intro h
    subst h
    have hdrop : subsListTopic.drop 19 = [] := rfl
    rw [hdrop]
    exact List.filter_eq_self.mpr (fun a _ => by cases a <;> rfl)

/-- C1 witness: a concrete four-frame query against a two-entry table. -/
theorem list_query_reply_witness :
    isListQuery "subscriptions/list/a".data = true
    ∧ ["ab".data, "b".data].Nodup
    ∧ handleIncoming ["ab".data, "b".data]
        ["subscriptions/list/a".data, "H".data, "p1".data, "p2".data]
      = "subscriptions/list/a".data :: "H".data
          :: (["ab".data, "b".data].filter
              (fun t => ("subscriptions/list/a".data.drop 19).isPrefixOf t)) :=
  ⟨by decide, by decide, (list_query_reply _ _ _ (by decide) (by decide)).1⟩

/-- C6: frame 0 marks a subscription-list query exactly when it equals
`subscriptions/list` or extends it past a `/`; a topic such as
`subscriptions/listing` is not a query and its message is forwarded
unchanged. -/
theorem query_boundary :
    (∀ topic : Frame, isListQuery topic = true ↔
        (topic = subsListTopic ∨ (subsListTopic ++ ['/']) <+: topic))
    ∧ isListQuery "subscriptions/listing".data = false
    ∧ (∀ (subs : List Frame) (rest : List Frame),
        handleIncoming subs ("subscriptions/listing".data :: rest)
          = "subscriptions/listing".data :: rest) := by
  have hlen : subsListTopic.length = 18 := rfl
  refine ⟨?_, by decide, ?_⟩
  · intro topic
    constructor
    · intro h
      rw [isListQuery, Bool.and_eq_true] at h
      obtain ⟨h1, h2⟩ := h
      have hp : subsListTopic <+: topic := List.isPrefixOf_iff_prefix.mp h1
      have htake : topic.take 18 = subsListTopic := by
        have h3 := List.prefix_iff_eq_take.mp hp
        rw [hlen] at h3
        exact h3.symm
      have hsplit : topic = subsListTopic ++ topic.drop 18 := by
        conv_lhs => rw [← List.take_append_drop 18 topic]
        rw [htake]
      rcases hdrop : topic.drop 18 with _ | ⟨c, cs⟩
      · left
        rw [hdrop] at hsplit
        rw [hsplit, List.append_nil]
      · right
        rw [hdrop] at hsplit h2
        have hc : c = '/' := by
          simp [List.take] at h2
          exact h2
        refine ⟨cs, ?_⟩
        rw [hsplit, hc]
        simp
    · intro h
      rcases h with h | ⟨t, ht⟩
      · subst h; decide
      · rw [← ht, isListQuery, Bool.and_eq_true]
        constructor
        · exact List.isPrefixOf_iff_prefix.mpr ⟨['/'] ++ t, by simp⟩
        · rw [show (18 : Nat) = subsListTopic.length from rfl,
              List.append_assoc, List.drop_left]
          rfl
  · intro subs rest
    have hq : isListQuery "subscriptions/listing".data = false := by decide
    simp [handleIncoming, hq]

/-- C6 witness: a concrete topic extending the reserved prefix past a slash is
recognized as a query. -/
theorem query_boundary_witness :
    isListQuery "subscriptions/list/dev".data = true :=
  (query_boundary.1 _).mpr (Or.inr ⟨"dev".data, by decide⟩)

/-- The table rewrite of `set.add` agrees with `Finset.insert`. -/
theorem toFinset_setAdd (t : Frame) (s : List Frame) :
    (setAdd t s).toFinset = insert t s.toFinset := by
  unfold setAdd
  split
  · exact (Finset.insert_eq_self.mpr (List.mem_toFinset.mpr (by assumption))).symm
  · simp

/-- The table rewrite of `set.add` keeps the table duplicate-free. -/
theorem nodup_setAdd (t : Frame) (s : List Frame) (h : s.Nodup) :
    (setAdd t s).Nodup := by
  unfold setAdd
  split
  · exact h
  · exact List.Nodup.cons (by assumption) h

/-- The table rewrite of `set.discard` agrees with `Finset.erase` on a
duplicate-free table. -/
theorem toFinset_setDiscard (t : Frame) (s : List Frame) (h : s.Nodup) :
    (setDiscard t s).toFinset = s.toFinset.erase t := by
  ext a
  simp [setDiscard, h.mem_erase_iff, Finset.mem_erase, List.mem_toFinset]

/-- State component of the subscription-event handler on a non-empty frame. -/
theorem handleSubscription_fst (s : List Frame) (c : Char) (topic : Frame) :
    (handleSubscription s (c :: topic)).1
      = if c.toNat ≠ 0 then setAdd topic s else setDiscard topic s := by
  by_cases hc : c.toNat = 0 <;> simp [handleSubscription, hc]

/-- Replaying events from any duplicate-free table refines the set-level fold
and keeps the table duplicate-free. -/
theorem processEvents_toFinset_aux (events : List (Char × Frame)) :
    ∀ s : List Frame, s.Nodup →
      ((events.map (fun e => e.1 :: e.2)).foldl
          (fun s e => (handleSubscription s e).1) s).toFinset
        = events.foldl
            (fun fs e => if e.1.toNat ≠ 0 then insert e.2 fs else fs.erase e.2)
            s.toFinset
      ∧ ((events.map (fun e => e.1 :: e.2)).foldl
          (fun s e => (handleSubscription s e).1) s).Nodup := by
  induction events with
  | nil => exact fun s h => ⟨rfl, h⟩
  | cons hd tl ih =>
    intro s hnd
    obtain ⟨c, topic⟩ := hd
    simp only [List.map_cons, List.foldl_cons, handleSubscription_fst]
    by_cases hc : c.toNat = 0
    · simp only [hc, ne_eq, not_true_eq_false, if_false]
      have h1 := ih (setDiscard topic s) (hnd.erase topic)
      rw [toFinset_setDiscard topic s hnd] at h1
      exact h1
    · simp only [hc, ne_eq, not_false_eq_true, if_true]
      have h1 := ih (setAdd topic s) (nodup_setAdd topic s hnd)
      rw [toFinset_setAdd topic s] at h1
      exact h1

/-- C2: replaying any finite sequence of flag-byte/topic subscription events
through the Exchange yields exactly the fold of set-insert and set-delete over
the empty set; adding a present topic is a no-op and removing an absent topic
is a safe no-op. -/
theorem table_is_fold_of_events (events : List (Char × Frame)) :
    (processEvents (events.map (fun e => e.1 :: e.2))).toFinset
        = events.foldl
            (fun fs e => if e.1.toNat ≠ 0 then insert e.2 fs else fs.erase e.2)
            (∅ : Finset Frame)
    ∧ (processEvents (events.map (fun e => e.1 :: e.2))).Nodup
    ∧ (∀ (t : Frame) (s : List Frame), t ∈ s → setAdd t s = s)
    ∧ (∀ (t : Frame) (s : List Frame), t ∉ s → setDiscard t s = s) := by
  have h := processEvents_toFinset_aux events [] List.nodup_nil
  refine ⟨?_, h.2, fun t s ht => by simp [setAdd, ht],
    fun t s ht => List.erase_of_not_mem ht⟩
  simpa [processEvents] using h.1

/-- C2 witness: adding an already-present topic leaves a concrete table
unchanged. -/
theorem table_is_fold_of_events_witness :
    setAdd "a".data ["a".data] = ["a".data] :=
  (table_is_fold_of_events []).2.2.1 _ _ (by decide)

end Volttron
